import Mathlib

/-!
Verification of the trend-data acquisition, normalization and caching layer
of the keyword-trends API (`src/app.py`).

Strings are modelled as `List Char`.  The Python string builtins used by the
source (`str.strip`, `str.lower`, `str.endswith`, `str.isdigit`, `int`) are
modelled on a character fragment that is faithful for ASCII text plus the
Unicode superscript/subscript digit characters, which Python's `str.isdigit`
accepts but `int` rejects.  Time is modelled as `Nat`, the process-wide cache
dict as an association list, and the pytrends provider as an explicit oracle
function passed to each endpoint.
-/

/-- Whitespace fragment used by `str.strip`: space, tab, LF, VT, FF, CR. -/
def pyWhitespace (c : Char) : Bool :=
  c.toNat == 32 || c.toNat == 9 || c.toNat == 10 || c.toNat == 11 ||
  c.toNat == 12 || c.toNat == 13

/-- Model of Python `str.strip()`: drop leading and trailing whitespace. -/
def pyStrip (s : List Char) : List Char :=
  ((s.dropWhile pyWhitespace).reverse.dropWhile pyWhitespace).reverse

/-- Model of Python `str.lower` on one character (ASCII case mapping). -/
def pyToLower (c : Char) : Char :=
  if 65 ≤ c.toNat && c.toNat ≤ 90 then Char.ofNat (c.toNat + 32) else c

/-- Model of Python `str.lower()`. -/
def pyLower (s : List Char) : List Char := s.map pyToLower

/-- Model of `s.endswith(c)` for a one-character suffix. -/
def pyEndsWith (s : List Char) (c : Char) : Bool := s.getLast? == some c

/-- Decimal digit characters `'0'`..`'9'` (Unicode `Numeric_Type=Decimal`,
ASCII range), the characters `int` can parse. -/
def asciiDigit (c : Char) : Bool := 48 ≤ c.toNat && c.toNat ≤ 57

/-- Character fragment of Python `str.isdigit`: decimal digits plus the
superscript digits U+00B9/U+00B2/U+00B3 and U+2070, U+2074..U+2079 and the
subscript digits U+2080..U+2089, which have `Numeric_Type=Digit` but no
decimal value, so `str.isdigit` accepts them while `int` raises on them.
Other Unicode numeric scripts are outside the modelled fragment. -/
def pyIsDigitChar (c : Char) : Bool :=
  asciiDigit c || c.toNat == 0xB9 || c.toNat == 0xB2 || c.toNat == 0xB3 ||
  c.toNat == 0x2070 || (0x2074 ≤ c.toNat && c.toNat ≤ 0x2079) ||
  (0x2080 ≤ c.toNat && c.toNat ≤ 0x2089)

/-- Model of Python `s.isdigit()`: non-empty and all characters digit-like. -/
def pyIsDigitStr (s : List Char) : Bool := !s.isEmpty && s.all pyIsDigitChar

/-- Model of `int(s)` restricted to the shapes reachable in the source: it
succeeds exactly on non-empty strings of decimal digits (the source only
calls it behind an `isdigit` guard; a digit-like character without a decimal
value, e.g. `'²'`, makes `int` raise `ValueError`, modelled as `none`). -/
def pyInt? (s : List Char) : Option Nat :=
  if (!s.isEmpty && s.all asciiDigit) = true then
    some (s.foldl (fun a c => 10 * a + (c.toNat - 48)) 0)
  else none

/-- Decimal digit character for a value `d < 10` (used to model the
`f"today {m}-m"` interpolation of an `int`). -/
def digChar (d : Nat) : Char :=
  if d = 0 then '0' else if d = 1 then '1' else if d = 2 then '2'
  else if d = 3 then '3' else if d = 4 then '4' else if d = 5 then '5'
  else if d = 6 then '6' else if d = 7 then '7' else if d = 8 then '8'
  else '9'

/-- Fuel-driven accumulator loop producing the decimal digits of `n` in
front of `acc` (most significant first). -/
def natToCharsAux : Nat → Nat → List Char → List Char
  | 0, _, acc => acc
  | fuel + 1, n, acc =>
    if n = 0 then acc else natToCharsAux fuel (n / 10) (digChar (n % 10) :: acc)

/-- Decimal representation of a natural number, as Python's `str`/f-string
formatting of a non-negative `int` produces it. -/
def natToChars (n : Nat) : List Char :=
  if n = 0 then ['0'] else natToCharsAux (n + 1) n []

/-- Model of `parse_since` (src/app.py lines 103-111).  The result is
`Except` because `int(s[:-1])` can raise even under the `isdigit` guard
(e.g. on `"²m"`); the exception escapes `parse_since`, whose callers invoke
it outside their `try` blocks. -/
def pyClean (s : List Char) : List Char :=
  pyLower (pyStrip (if s.isEmpty then ("12m").data else s))

/-- Clamped month window token: `"today 12-m" if m >= 12 else f"today {m}-m"`. -/
def clampM (m : Nat) : List Char :=
  if 12 ≤ m then ("today 12-m").data
  else ("today ").data ++ natToChars m ++ ("-m").data

/-- Clamped year window token: `"today 5-y" if y >= 5 else f"today {y}-y"`. -/
def clampY (y : Nat) : List Char :=
  if 5 ≤ y then ("today 5-y").data
  else ("today ").data ++ natToChars y ++ ("-y").data

def parse_since (s0 : List Char) : Except Unit (List Char) :=
  if pyEndsWith (pyClean s0) 'm' && pyIsDigitStr (pyClean s0).dropLast then
    ((pyInt? (pyClean s0).dropLast).elim (.error ()) fun m => .ok (clampM m))
  else if pyEndsWith (pyClean s0) 'y' && pyIsDigitStr (pyClean s0).dropLast then
    ((pyInt? (pyClean s0).dropLast).elim (.error ()) fun y => .ok (clampY y))
  else .ok (("today 12-m").data)

instance {ε α : Type} [DecidableEq ε] [DecidableEq α] : DecidableEq (Except ε α) := fun x y =>
  match x, y with
  | .error e, .error f => decidable_of_iff (e = f) (by simp)
  | .error _, .ok _ => isFalse (fun h => Except.noConfusion h)
  | .ok _, .error _ => isFalse (fun h => Except.noConfusion h)
  | .ok a, .ok b => decidable_of_iff (a = b) (by simp)

/-! Facts about decimal printing and the modelled string builtins. -/

lemma natToCharsAux_succ (fuel n : Nat) (acc : List Char) :
    natToCharsAux (fuel + 1) n acc =
      if n = 0 then acc else natToCharsAux fuel (n / 10) (digChar (n % 10) :: acc) := rfl

lemma natToCharsAux_zero (fuel : Nat) (acc : List Char) :
    natToCharsAux fuel 0 acc = acc := by
  cases fuel <;> rfl

lemma natToCharsAux_decomp (n : Nat) : ∀ fuel acc, n ≤ fuel →
    natToCharsAux fuel n acc = natToCharsAux (n + 1) n [] ++ acc := by
  induction n using Nat.strong_induction_on with
  | _ n ih =>
    intro fuel acc hfuel
    cases fuel with
    | zero =>
      have hn : n = 0 := by omega
      subst hn
      simp [natToCharsAux_zero]
    | succ f =>
      by_cases hn : n = 0
      · subst hn; simp [natToCharsAux_zero]
      · have hdiv : n / 10 < n := Nat.div_lt_self (Nat.pos_of_ne_zero hn) (by omega)
        rw [natToCharsAux_succ, if_neg hn, natToCharsAux_succ, if_neg hn]
        rw [ih (n / 10) hdiv f (digChar (n % 10) :: acc) (by omega)]
        rw [ih (n / 10) hdiv n [digChar (n % 10)] (by omega)]
        simp

lemma natToChars_rec (n : Nat) (hn : n ≠ 0) :
    natToChars n =
      (if n / 10 = 0 then [] else natToChars (n / 10)) ++ [digChar (n % 10)] := by
  rw [natToChars, if_neg hn, natToCharsAux_succ, if_neg hn]
  by_cases h10 : n / 10 = 0
  · rw [h10, if_pos rfl]
    simp [natToCharsAux_zero]
  · rw [if_neg h10, natToChars, if_neg h10]
    exact natToCharsAux_decomp (n / 10) n [digChar (n % 10)] (Nat.div_le_self n 10)

lemma digChar_toNat (d : Nat) (h : d < 10) : (digChar d).toNat = 48 + d := by
  interval_cases d <;> decide

lemma digChar_ascii (d : Nat) (h : d < 10) : asciiDigit (digChar d) = true := by
  interval_cases d <;> decide

lemma asciiDigit_bounds {c : Char} (h : asciiDigit c = true) :
    48 ≤ c.toNat ∧ c.toNat ≤ 57 := by
  simpa [asciiDigit] using h

lemma asciiDigit_facts {c : Char} (h : asciiDigit c = true) :
    pyWhitespace c = false ∧ pyToLower c = c ∧ pyIsDigitChar c = true := by
  have hb := asciiDigit_bounds h
  refine ⟨?_, ?_, ?_⟩
  · simp only [pyWhitespace, Bool.or_eq_false_iff, beq_eq_false_iff_ne, ne_eq]
    omega
  · rw [pyToLower, if_neg]
    simp only [Bool.and_eq_true, decide_eq_true_eq, not_and]
    omega
  · simp only [pyIsDigitChar, Bool.or_eq_true]
    left; left; left; left; left; left
    exact h

lemma natToChars_all_digit (n : Nat) : ∀ c ∈ natToChars n, asciiDigit c = true := by
  induction n using Nat.strong_induction_on with
  | _ n ih =>
    intro c hc
    by_cases hn : n = 0
    · subst hn
      simp [natToChars] at hc
      subst hc; decide
    · rw [natToChars_rec n hn] at hc
      rcases List.mem_append.1 hc with h | h
      · by_cases h10 : n / 10 = 0
        · rw [if_pos h10] at h; simp at h
        · rw [if_neg h10] at h
          exact ih (n / 10) (Nat.div_lt_self (Nat.pos_of_ne_zero hn) (by omega)) c h
      · simp at h
        subst h
        exact digChar_ascii (n % 10) (Nat.mod_lt _ (by omega))

lemma natToChars_ne_nil (n : Nat) : natToChars n ≠ [] := by
  by_cases hn : n = 0
  · subst hn; simp [natToChars]
  · rw [natToChars_rec n hn]; simp

lemma natToChars_foldl (n : Nat) :
    (natToChars n).foldl (fun a c => 10 * a + (c.toNat - 48)) 0 = n := by
  induction n using Nat.strong_induction_on with
  | _ n ih =>
    by_cases hn : n = 0
    · subst hn; decide
    · rw [natToChars_rec n hn, List.foldl_append]
      have hmod : n % 10 < 10 := Nat.mod_lt _ (by omega)
      by_cases h10 : n / 10 = 0
      · rw [if_pos h10]
        simp only [List.foldl_nil, List.foldl_cons]
        rw [digChar_toNat _ hmod]
        omega
      · rw [if_neg h10, ih (n / 10) (Nat.div_lt_self (Nat.pos_of_ne_zero hn) (by omega))]
        simp only [List.foldl_cons, List.foldl_nil]
        rw [digChar_toNat _ hmod]
        omega

lemma pyInt?_natToChars (n : Nat) : pyInt? (natToChars n) = some n := by
  have h1 : (natToChars n).isEmpty = false := by
    simp [List.isEmpty_iff, natToChars_ne_nil n]
  have h2 : (natToChars n).all asciiDigit = true := by
    rw [List.all_eq_true]; exact natToChars_all_digit n
  rw [pyInt?, if_pos (by rw [h1, h2]; rfl), natToChars_foldl]

lemma pyIsDigitStr_natToChars (n : Nat) : pyIsDigitStr (natToChars n) = true := by
  have h1 : (natToChars n).isEmpty = false := by
    simp [List.isEmpty_iff, natToChars_ne_nil n]
  have h2 : (natToChars n).all pyIsDigitChar = true := by
    rw [List.all_eq_true]
    intro c hc
    exact (asciiDigit_facts (natToChars_all_digit n c hc)).2.2
  rw [pyIsDigitStr, h1, h2]; rfl

lemma dropWhile_all_neg {p : Char → Bool} {l : List Char} (h : ∀ c ∈ l, p c = false) :
    l.dropWhile p = l := by
  cases l with
  | nil => rfl
  | cons c t =>
    rw [List.dropWhile_cons, if_neg]
    simp [h c (List.mem_cons_self c t)]

lemma pyStrip_id {l : List Char} (h : ∀ c ∈ l, pyWhitespace c = false) :
    pyStrip l = l := by
  rw [pyStrip, dropWhile_all_neg h, dropWhile_all_neg, List.reverse_reverse]
  intro c hc
  exact h c (List.mem_reverse.1 hc)

lemma pyLower_id {l : List Char} (h : ∀ c ∈ l, pyToLower c = c) : pyLower l = l := by
  rw [pyLower]
  exact (List.map_congr_left h).trans (List.map_id l)

lemma pyClean_id {l : List Char} (hne : l ≠ [])
    (h : ∀ c ∈ l, pyWhitespace c = false ∧ pyToLower c = c) : pyClean l = l := by
  rw [pyClean, if_neg (by simp [List.isEmpty_iff, hne])]
  rw [pyStrip_id (fun c hc => (h c hc).1), pyLower_id (fun c hc => (h c hc).2)]

example : parse_since (("3m").data) = .ok (("today 3-m").data) := by decide
example : parse_since (("24m").data) = .ok (("today 12-m").data) := by decide
example : parse_since (("bogus").data) = .ok (("today 12-m").data) := by decide
example : parse_since (("7y").data) = .ok (("today 5-y").data) := by decide
example : parse_since (("3y").data) = .ok (("today 3-y").data) := by decide
example : parse_since ([]) = .ok (("today 12-m").data) := by decide
example : parse_since (("0m").data) = .ok (("today 0-m").data) := by decide
example : parse_since (("  3M ").data) = .ok (("today 3-m").data) := by decide
example : parse_since (("²m").data) = .error () := by decide
example : parse_since (("-3m").data) = .ok (("today 12-m").data) := by decide

/-! Cleanliness of digit-built inputs and guard evaluation lemmas. -/

lemma pyEndsWith_concat (l : List Char) (c : Char) : pyEndsWith (l ++ [c]) c = true := by
  rw [pyEndsWith, List.getLast?_concat]
  exact beq_self_eq_true _

lemma pyEndsWith_concat_ne (l : List Char) (c d : Char) (h : c ≠ d) :
    pyEndsWith (l ++ [c]) d = false := by
  rw [pyEndsWith, List.getLast?_concat]
  simp [h]

lemma pyClean_digits_concat (n : Nat) (u : Char)
    (hu : pyWhitespace u = false ∧ pyToLower u = u) :
    pyClean (natToChars n ++ [u]) = natToChars n ++ [u] := by
  apply pyClean_id (by simp)
  intro c hc
  rcases List.mem_append.1 hc with h | h
  · have hf := asciiDigit_facts (natToChars_all_digit n c h)
    exact ⟨hf.1, hf.2.1⟩
  · simp at h
    subst h
    exact hu

/-- C6: window translation clamps both units: for every m with 1 <= m <= 12,
translating `"{m}m"` yields `"today {m}-m"`, and for m > 12 it yields
`"today 12-m"`; for every y with 1 <= y <= 5, translating `"{y}y"` yields
`"today {y}-y"`, and for y > 5 it yields `"today 5-y"`; matching is
case-insensitive on trimmed input (witnessed by `"  3M "`). -/
theorem window_translate_clamp (m y : Nat) (hm : 1 ≤ m) (hy : 1 ≤ y) :
    (m ≤ 12 →
      parse_since (natToChars m ++ [('m')]) =
        .ok (("today ").data ++ natToChars m ++ ("-m").data)) ∧
    (12 < m → parse_since (natToChars m ++ [('m')]) = .ok (("today 12-m").data)) ∧
    (y ≤ 5 →
      parse_since (natToChars y ++ [('y')]) =
        .ok (("today ").data ++ natToChars y ++ ("-y").data)) ∧
    (5 < y → parse_since (natToChars y ++ [('y')]) = .ok (("today 5-y").data)) ∧
    parse_since (("  3M ").data) = .ok (("today 3-m").data) := by
  have hcm : pyClean (natToChars m ++ [('m')]) = natToChars m ++ [('m')] :=
    pyClean_digits_concat m ('m') (by decide)
  have hcy : pyClean (natToChars y ++ [('y')]) = natToChars y ++ [('y')] :=
    pyClean_digits_concat y ('y') (by decide)
  refine ⟨?_, ?_, ?_, ?_, by decide⟩
  · intro h
    rw [parse_since, hcm, pyEndsWith_concat, List.dropLast_concat,
      pyIsDigitStr_natToChars, pyInt?_natToChars]
    by_cases h12 : 12 ≤ m
    · have : m = 12 := le_antisymm h h12
      subst this
      decide
    · simp only [Bool.and_self, if_true, Option.elim_some, clampM, if_neg h12]
  · intro h
    rw [parse_since, hcm, pyEndsWith_concat, List.dropLast_concat,
      pyIsDigitStr_natToChars, pyInt?_natToChars]
    simp only [Bool.and_self, if_true, Option.elim_some, clampM, if_pos (by omega : 12 ≤ m)]
  · intro h
    rw [parse_since, hcy, pyEndsWith_concat_ne _ _ _ (by decide : ('y' : Char) ≠ ('m')),
      Bool.false_and, if_neg (by simp), pyEndsWith_concat, List.dropLast_concat,
      pyIsDigitStr_natToChars, pyInt?_natToChars]
    by_cases h5 : 5 ≤ y
    · have : y = 5 := le_antisymm h h5
      subst this
      decide
    · simp only [Bool.and_self, if_true, Option.elim_some, clampY, if_neg h5]
  · intro h
    rw [parse_since, hcy, pyEndsWith_concat_ne _ _ _ (by decide : ('y' : Char) ≠ ('m')),
      Bool.false_and, if_neg (by simp), pyEndsWith_concat, List.dropLast_concat,
      pyIsDigitStr_natToChars, pyInt?_natToChars]
    simp only [Bool.and_self, if_true, Option.elim_some, clampY, if_pos (by omega : 5 ≤ y)]

theorem window_translate_clamp_witness :
    parse_since (natToChars 3 ++ [('m')]) =
      .ok (("today ").data ++ natToChars 3 ++ ("-m").data) ∧
    parse_since (natToChars 7 ++ [('y')]) = .ok (("today 5-y").data) :=
  ⟨(window_translate_clamp 3 7 (by decide) (by decide)).1 (by decide),
   (window_translate_clamp 3 7 (by decide) (by decide)).2.2.2.1 (by decide)⟩

/-- C7 counterexample: `"²m"` is non-empty and is not of the form
`<int>m` or `<int>y` (its first character is not a decimal digit), so the
claim requires the default `"today 12-m"`; but Python's `"²".isdigit()` is
true while `int("²")` raises, so `parse_since` raises instead of returning
the default. -/
theorem translate_default_cex :
    (¬ ∃ ds : List Char, (ds ≠ [] ∧ ∀ c ∈ ds, asciiDigit c = true) ∧
        ((("²m").data = ds ++ [('m')]) ∨ (("²m").data = ds ++ [('y')]))) ∧
    (("²m").data ≠ []) ∧
    parse_since (("²m").data) = .error () ∧
    parse_since (("²m").data) ≠ .ok (("today 12-m").data) := by
  refine ⟨?_, by decide, by decide, by decide⟩
  rintro ⟨ds, ⟨hne, hdig⟩, h | h⟩
  · have h2 := congrArg List.dropLast h
    rw [List.dropLast_concat] at h2
    have hmem : ('²') ∈ ds := by
      rw [← h2]; decide
    exact absurd (hdig ('²') hmem) (by decide)
  · have h2 := congrArg List.getLast? h
    rw [List.getLast?_concat] at h2
    exact absurd h2 (by decide)

/-- C7 (amended): any input whose cleaned (defaulted, stripped, lowered)
form fails both of the code's pattern guards — in particular the empty
string and negative amounts like `"-{n}m"` — translates to the default
`"today 12-m"`; the zero edge case `"0m"` is preserved as `"today 0-m"`
rather than defaulted.  (The unamended claim fails on strings such as
`"²m"` whose digit-like run is not decimal: those raise instead of
defaulting, see the counterexample.) -/
theorem translate_default_policy (s : List Char) (n : Nat)
    (h1 : (pyEndsWith (pyClean s) ('m') && pyIsDigitStr (pyClean s).dropLast) = false)
    (h2 : (pyEndsWith (pyClean s) ('y') && pyIsDigitStr (pyClean s).dropLast) = false) :
    parse_since s = .ok (("today 12-m").data) ∧
    parse_since ([]) = .ok (("today 12-m").data) ∧
    parse_since (('-') :: (natToChars n ++ [('m')])) = .ok (("today 12-m").data) ∧
    parse_since (("0m").data) = .ok (("today 0-m").data) := by
  refine ⟨?_, by decide, ?_, by decide⟩
  · rw [parse_since, h1, h2]
    simp
  · have hsplit : ('-') :: (natToChars n ++ [('m')]) =
        (('-') :: natToChars n) ++ [('m')] := by simp
    have hclean : pyClean (('-') :: (natToChars n ++ [('m')])) =
        ('-') :: (natToChars n ++ [('m')]) := by
      apply pyClean_id (by simp)
      intro c hc
      simp only [List.mem_cons, List.mem_append] at hc
      rcases hc with rfl | hc | rfl | hfalse
      · exact (by decide)
      · have hf := asciiDigit_facts (natToChars_all_digit n c hc)
        exact ⟨hf.1, hf.2.1⟩
      · exact (by decide)
      · exact absurd hfalse (by simp)
    have hdrop : (('-') :: (natToChars n ++ [('m')])).dropLast = ('-') :: natToChars n := by
      rw [hsplit]
      exact List.dropLast_concat
    have hdig : pyIsDigitStr (('-') :: natToChars n) = false := by
      rw [pyIsDigitStr]
      simp [show pyIsDigitChar ('-') = false from by decide]
    rw [parse_since, hclean, hdrop, hdig, Bool.and_false, Bool.and_false]
    simp

theorem translate_default_policy_witness :
    parse_since (("bogus").data) = .ok (("today 12-m").data) ∧
    parse_since (("-3m").data) = .ok (("today 12-m").data) :=
  ⟨(translate_default_policy (("bogus").data) 0 (by decide) (by decide)).1,
   (translate_default_policy (("bogus").data) 3 (by decide) (by decide)).2.2.1⟩

/-- C8 counterexample: window translation is not total on arbitrary unicode
input: on `"²m"` (superscript two followed by `m`) Python's `isdigit` guard
passes but `int` raises `ValueError`, and the exception escapes
`parse_since`, so a caller observes a failure from this step. -/
theorem translate_not_total_cex : parse_since (("²m").data) = Except.error () := by
  decide

/-- C8 (amended): window translation is total and yields a clamped window
token for every input string in which each digit-like character (after
defaulting, stripping and lowering) is a true decimal digit — in
particular for all ASCII input.  The unamended claim fails on inputs
carrying non-decimal digit-like characters such as `"²m"`. -/
theorem translate_total_on_decimal (s : List Char)
    (hsafe : ∀ c ∈ pyClean s, pyIsDigitChar c = true → asciiDigit c = true) :
    (∃ n, parse_since s = .ok (clampM n) ∨ parse_since s = .ok (clampY n)) ∧
    parse_since s ≠ .error () := by
  have main : ∃ n, parse_since s = .ok (clampM n) ∨ parse_since s = .ok (clampY n) := by
    by_cases g1 : (pyEndsWith (pyClean s) ('m') && pyIsDigitStr (pyClean s).dropLast) = true
    · have hd : pyIsDigitStr (pyClean s).dropLast = true := by
        rw [Bool.and_eq_true] at g1
        exact g1.2
      rw [pyIsDigitStr, Bool.and_eq_true] at hd
      have hall : (pyClean s).dropLast.all asciiDigit = true := by
        rw [List.all_eq_true] at hd ⊢
        intro c hc
        exact hsafe c ((List.dropLast_sublist (pyClean s)).subset hc) (hd.2 c hc)
      have hint : pyInt? (pyClean s).dropLast =
          some ((pyClean s).dropLast.foldl (fun a c => 10 * a + (c.toNat - 48)) 0) := by
        rw [pyInt?, if_pos (by rw [hd.1, hall]; rfl)]
      refine ⟨(pyClean s).dropLast.foldl (fun a c => 10 * a + (c.toNat - 48)) 0, Or.inl ?_⟩
      rw [parse_since, if_pos g1, hint]
      rfl
    · by_cases g2 : (pyEndsWith (pyClean s) ('y') && pyIsDigitStr (pyClean s).dropLast) = true
      · have hd : pyIsDigitStr (pyClean s).dropLast = true := by
          rw [Bool.and_eq_true] at g2
          exact g2.2
        rw [pyIsDigitStr, Bool.and_eq_true] at hd
        have hall : (pyClean s).dropLast.all asciiDigit = true := by
          rw [List.all_eq_true] at hd ⊢
          intro c hc
          exact hsafe c ((List.dropLast_sublist (pyClean s)).subset hc) (hd.2 c hc)
        have hint : pyInt? (pyClean s).dropLast =
            some ((pyClean s).dropLast.foldl (fun a c => 10 * a + (c.toNat - 48)) 0) := by
          rw [pyInt?, if_pos (by rw [hd.1, hall]; rfl)]
        refine ⟨(pyClean s).dropLast.foldl (fun a c => 10 * a + (c.toNat - 48)) 0, Or.inr ?_⟩
        rw [parse_since, if_neg g1, if_pos g2, hint]
        rfl
      · refine ⟨12, Or.inl ?_⟩
        rw [parse_since, if_neg g1, if_neg g2]
        rfl
  refine ⟨main, ?_⟩
  rcases main with ⟨n, h | h⟩ <;> rw [h] <;> exact fun hh => Except.noConfusion hh

theorem translate_total_on_decimal_witness :
    (∃ n, parse_since (("7y").data) = .ok (clampM n) ∨
      parse_since (("7y").data) = .ok (clampY n)) ∧
    parse_since (("7y").data) ≠ .error () :=
  translate_total_on_decimal (("7y").data) (by decide)

/-! Cache model: the process-wide `CACHE` dict (src/app.py lines 89-101),
modelled as an association list keyed by strings, with `time.time()`
modelled as a `Nat` timestamp supplied explicitly. -/

def CACHE_TTL : Nat := 60 * 20

structure CacheEntry (α : Type) where
  data : α
  ts : Nat
  ttl : Nat
deriving DecidableEq

abbrev Cache (α : Type) := List (List Char × CacheEntry α)

/-- Model of Python `ttl or CACHE_TTL`: `None` and `0` are both falsy. -/
def pyTtlOr (ttl : Option Nat) : Nat :=
  match ttl with
  | none => CACHE_TTL
  | some t => if t = 0 then CACHE_TTL else t

/-- Model of `cache_set`: `CACHE[k] = {"data": data, "ts": time.time(),
"ttl": ttl or CACHE_TTL}` — always overwrites the entry for `k`. -/
def cache_set {α : Type} (c : Cache α) (k : List Char) (d : α) (ttl : Option Nat)
    (now : Nat) : Cache α :=
  (k, ⟨d, now, pyTtlOr ttl⟩) :: c.filter (fun p => !(p.1 == k))

def cacheFind {α : Type} (c : Cache α) (k : List Char) : Option (CacheEntry α) :=
  (c.find? (fun p => p.1 == k)).map Prod.snd

/-- Model of `CACHE.pop(k, None)`. -/
def cacheErase {α : Type} (c : Cache α) (k : List Char) : Cache α :=
  c.filter (fun p => !(p.1 == k))

/-- Model of `cache_get`: absent key gives `None`; an entry with
`now - ts > ttl` is popped and `None` returned; otherwise the data is
returned.  The (possibly mutated) cache is returned alongside. -/
def cache_get {α : Type} (c : Cache α) (k : List Char) (now : Nat) :
    Option α × Cache α :=
  (cacheFind c k).elim (none, c) fun e =>
    if e.ttl < now - e.ts then (none, cacheErase c k) else (some e.data, c)

lemma find?_filter_not {α : Type} (p : α → Bool) (l : List α) :
    (l.filter (fun a => !(p a))).find? p = none := by
  induction l with
  | nil => rfl
  | cons a t ih =>
    rw [List.filter_cons]
    by_cases h : p a = true
    · rw [if_neg (by simp [h])]
      exact ih
    · have h' : p a = false := by simpa using h
      rw [if_pos (by simp [h']), List.find?_cons_of_neg _ (by simp [h']), ih]

lemma cacheFind_erase {α : Type} (c : Cache α) (k : List Char) :
    cacheFind (cacheErase c k) k = none := by
  rw [cacheFind, cacheErase, find?_filter_not]
  rfl

lemma cacheFind_set {α : Type} (c : Cache α) (k : List Char) (d : α)
    (ttl : Option Nat) (now : Nat) :
    cacheFind (cache_set c k d ttl now) k = some ⟨d, now, pyTtlOr ttl⟩ := by
  rw [cacheFind, cache_set, List.find?_cons_of_pos _ (by simp)]
  rfl

/-- C1 counterexample: with ttl T = 0, a `get` strictly more than T time
units after the set still returns the value rather than absent: Python's
`ttl or CACHE_TTL` treats the 0 ttl as falsy and stores the 1200 s default
instead. -/
theorem cache_ttl_cex :
    (cache_get (cache_set ([] : Cache Nat) (("k").data) 7 (some 0) 0)
      (("k").data) 1).1 = some 7 ∧ 0 + 0 < 1 :=
  ⟨rfl, by decide⟩

/-- C1 (amended): for every key, value, and strictly positive ttl T, a get
before T time units have elapsed returns the value; a get strictly more
than T after the set returns absent and evicts the entry, so a subsequent
get at any time also returns absent.  (The unamended claim fails at T = 0,
where `ttl or CACHE_TTL` silently substitutes the default ttl.) -/
theorem cache_ttl_correct {α : Type} (c : Cache α) (k : List Char) (v : α)
    (T t0 t1 t2 t3 : Nat) (hT : 0 < T) :
    (t1 < t0 + T → (cache_get (cache_set c k v (some T) t0) k t1).1 = some v) ∧
    (t0 + T < t2 →
      (cache_get (cache_set c k v (some T) t0) k t2).1 = none ∧
      cacheFind ((cache_get (cache_set c k v (some T) t0) k t2).2) k = none ∧
      (cache_get ((cache_get (cache_set c k v (some T) t0) k t2).2) k t3).1 = none) := by
  have hfind := cacheFind_set c k v (some T) t0
  have httl : pyTtlOr (some T) = T := by
    rw [pyTtlOr]
    exact if_neg (by omega)
  constructor
  · intro h1
    rw [cache_get, hfind]
    simp only [Option.elim_some, httl]
    rw [if_neg (by omega)]
  · intro h2
    have hexp : (cache_get (cache_set c k v (some T) t0) k t2) =
        (none, cacheErase (cache_set c k v (some T) t0) k) := by
      rw [cache_get, hfind]
      simp only [Option.elim_some, httl]
      rw [if_pos (by omega)]
    refine ⟨by rw [hexp], by rw [hexp]; exact cacheFind_erase _ _, ?_⟩
    rw [hexp, cache_get, cacheFind_erase]
    rfl

theorem cache_ttl_correct_witness :
    (cache_get (cache_set ([] : Cache Nat) (("a").data) 7 (some 5) 0)
      (("a").data) 3).1 = some 7 ∧
    (cache_get (cache_set ([] : Cache Nat) (("a").data) 7 (some 5) 0)
      (("a").data) 6).1 = none := by
  have h := cache_ttl_correct ([] : Cache Nat) (("a").data) 7 5 0 3 6 7 (by decide)
  exact ⟨h.1 (by decide), (h.2 (by decide)).1⟩

/-! Cache keys, built exactly as the endpoints build them:
`f"trending:{geo}"`, `f"interest:{kw}:{geo}:{tf}"`, `f"related:{kw}:{geo}:{tf}"`. -/

def trendingKey (geo : List Char) : List Char := ("trending:").data ++ geo

def interestKey (kw geo tf : List Char) : List Char :=
  ("interest:").data ++ kw ++ (":").data ++ geo ++ (":").data ++ tf

def relatedKey (kw geo tf : List Char) : List Char :=
  ("related:").data ++ kw ++ (":").data ++ geo ++ (":").data ++ tf

lemma colon_split (a : List Char) : ∀ b x y : List Char, (':') ∉ a → (':') ∉ b →
    a ++ (':') :: x = b ++ (':') :: y → a = b ∧ x = y := by
  induction a with
  | nil =>
    intro b x y _ hb h
    cases b with
    | nil =>
      simp at h
      exact ⟨rfl, h⟩
    | cons d bt =>
      simp at h
      rw [← h.1] at hb
      exact absurd (List.mem_cons_self _ _) hb
  | cons c ta ih =>
    intro b x y ha hb h
    cases b with
    | nil =>
      simp at h
      rw [h.1] at ha
      exact absurd (List.mem_cons_self _ _) ha
    | cons d bt =>
      simp only [List.cons_append, List.cons.injEq] at h
      obtain ⟨h1, h2⟩ := h
      have hta : (':') ∉ ta := fun hh => ha (List.mem_cons_of_mem _ hh)
      have hbt : (':') ∉ bt := fun hh => hb (List.mem_cons_of_mem _ hh)
      have hr := ih bt x y hta hbt h2
      exact ⟨by rw [h1, hr.1], hr.2⟩

/-- Every result `parse_since` can return is an error or a clamped token. -/
lemma parse_since_cases (s : List Char) :
    parse_since s = .error () ∨
      ∃ n, parse_since s = .ok (clampM n) ∨ parse_since s = .ok (clampY n) := by
  rw [parse_since]
  by_cases g1 : (pyEndsWith (pyClean s) ('m') && pyIsDigitStr (pyClean s).dropLast) = true
  · rw [if_pos g1]
    cases hpi : pyInt? (pyClean s).dropLast with
    | none => left; rfl
    | some m => right; exact ⟨m, Or.inl rfl⟩
  · rw [if_neg g1]
    by_cases g2 : (pyEndsWith (pyClean s) ('y') && pyIsDigitStr (pyClean s).dropLast) = true
    · rw [if_pos g2]
      cases hpi : pyInt? (pyClean s).dropLast with
      | none => left; rfl
      | some y => right; exact ⟨y, Or.inr rfl⟩
    · rw [if_neg g2]
      right
      exact ⟨12, Or.inl rfl⟩

lemma colon_toNat : (':' : Char).toNat = 58 := rfl

lemma clampM_no_colon (n : Nat) : (':') ∉ clampM n := by
  rw [clampM]
  by_cases h : 12 ≤ n
  · rw [if_pos h]; decide
  · rw [if_neg h]
    intro hmem
    simp only [List.mem_append] at hmem
    rcases hmem with (h1 | h2) | h3
    · exact absurd h1 (by decide)
    · have hb := asciiDigit_bounds (natToChars_all_digit n _ h2)
      rw [colon_toNat] at hb
      omega
    · exact absurd h3 (by decide)

lemma clampY_no_colon (n : Nat) : (':') ∉ clampY n := by
  rw [clampY]
  by_cases h : 5 ≤ n
  · rw [if_pos h]; decide
  · rw [if_neg h]
    intro hmem
    simp only [List.mem_append] at hmem
    rcases hmem with (h1 | h2) | h3
    · exact absurd h1 (by decide)
    · have hb := asciiDigit_bounds (natToChars_all_digit n _ h2)
      rw [colon_toNat] at hb
      omega
    · exact absurd h3 (by decide)

/-- C2 counterexample: the colon-joined cache key is not injective on
(keyword, geo, window) tuples: `kw="a:b", geo="c"` and `kw="a", geo="b:c"`
are distinct parameter tuples for the interest operation producing the very
same key string. -/
theorem cache_key_cex :
    interestKey (("a:b").data) (("c").data) (("today 12-m").data) =
      interestKey (("a").data) (("b:c").data) (("today 12-m").data) ∧
    ¬ ((("a:b").data = ("a").data) ∧ (("c").data = ("b:c").data)) :=
  ⟨by decide, by decide⟩

/-- C2 (amended): key derivation is deterministic and, when keyword and geo
contain no `':'` separator, injective: two interest (or two related) keys
agree exactly when keyword, geo and window token all agree, and an interest
key never equals a related key.  Window tokens produced by `parse_since`
never contain `':'`.  (The unamended claim fails when a parameter embeds
`':'` — see the counterexample.) -/
theorem cache_key_injective (kw1 kw2 geo1 geo2 tf1 tf2 : List Char)
    (h1 : (':') ∉ kw1) (h2 : (':') ∉ kw2) (h3 : (':') ∉ geo1) (h4 : (':') ∉ geo2)
    (h5 : (':') ∉ tf1) (h6 : (':') ∉ tf2) :
    (interestKey kw1 geo1 tf1 = interestKey kw2 geo2 tf2 ↔
      (kw1 = kw2 ∧ geo1 = geo2 ∧ tf1 = tf2)) ∧
    (relatedKey kw1 geo1 tf1 = relatedKey kw2 geo2 tf2 ↔
      (kw1 = kw2 ∧ geo1 = geo2 ∧ tf1 = tf2)) ∧
    (∀ s tf, parse_since s = .ok tf → (':') ∉ tf) ∧
    interestKey kw1 geo1 tf1 ≠ relatedKey kw2 geo2 tf2 := by
  have key_split : ∀ a1 a2 b1 b2 c1 c2 : List Char, (':') ∉ a1 → (':') ∉ a2 →
      (':') ∉ b1 → (':') ∉ b2 →
      a1 ++ (':') :: (b1 ++ (':') :: c1) = a2 ++ (':') :: (b2 ++ (':') :: c2) →
      a1 = a2 ∧ b1 = b2 ∧ c1 = c2 := by
    intro a1 a2 b1 b2 c1 c2 ha1 ha2 hb1 hb2 hh
    have hs1 := colon_split a1 a2 _ _ ha1 ha2 hh
    have hs2 := colon_split b1 b2 _ _ hb1 hb2 hs1.2
    exact ⟨hs1.1, hs2.1, hs2.2⟩
  refine ⟨?_, ?_, ?_, ?_⟩
  · constructor
    · intro h
      rw [interestKey, interestKey, show (":").data = [(':')] from rfl] at h
      simp only [List.append_assoc, List.singleton_append] at h
      have h' := List.append_cancel_left h
      exact key_split _ _ _ _ _ _ h1 h2 h3 h4 h'
    · rintro ⟨rfl, rfl, rfl⟩
      rfl
  · constructor
    · intro h
      rw [relatedKey, relatedKey, show (":").data = [(':')] from rfl] at h
      simp only [List.append_assoc, List.singleton_append] at h
      have h' := List.append_cancel_left h
      exact key_split _ _ _ _ _ _ h1 h2 h3 h4 h'
    · rintro ⟨rfl, rfl, rfl⟩
      rfl
  · intro s tf h
    rcases parse_since_cases s with he | ⟨n, hm | hy⟩
    · rw [h] at he
      exact absurd he (fun hh => Except.noConfusion hh)
    · rw [h] at hm
      rw [Except.ok.injEq] at hm
      rw [hm]
      exact clampM_no_colon n
    · rw [h] at hy
      rw [Except.ok.injEq] at hy
      rw [hy]
      exact clampY_no_colon n
  · intro hcontra
    have hh := congrArg List.head? hcontra
    rw [show List.head? (interestKey kw1 geo1 tf1) = some ('i') from rfl,
      show List.head? (relatedKey kw2 geo2 tf2) = some ('r') from rfl] at hh
    exact absurd hh (by decide)

theorem cache_key_injective_witness :
    interestKey (("dog").data) (("CZ").data) (("today 12-m").data) ≠
      relatedKey (("dog").data) (("CZ").data) (("today 12-m").data) :=
  (cache_key_injective (("dog").data) (("dog").data) (("CZ").data) (("CZ").data)
    (("today 12-m").data) (("today 12-m").data) (by decide) (by decide) (by decide)
    (by decide) (by decide) (by decide)).2.2.2

/-! Provider data model and the four trend endpoints (src/app.py 117-190).
The pytrends client is modelled as an oracle function supplied to each
endpoint; a `.error` oracle result stands for any exception raised during
the provider interaction, which the handlers turn into an HTTP 502. -/

/-- Result of `interest_over_time()`: a pandas frame with row labels
(already stringified) and named columns of per-bucket values; a missing
value (`NaN`) is an `Option.none`, filled by `.fillna(0)`. -/
structure DataFrame where
  index : List (List Char)
  cols : List (List Char × List (Option Int))
deriving DecidableEq

/-- Model of `df.empty`: true when either axis is empty. -/
def dfEmpty (df : DataFrame) : Bool := df.index.isEmpty || df.cols.isEmpty

/-- Model of `term in df.columns`. -/
def dfHasCol (df : DataFrame) (t : List Char) : Bool :=
  df.cols.any (fun p => p.1 == t)

/-- Model of `df[t]` (empty column if absent; only used under `dfHasCol`). -/
def dfCol (df : DataFrame) (t : List Char) : List (Option Int) :=
  ((df.cols.find? (fun p => p.1 == t)).map Prod.snd).getD []

/-- Model of `df[t].fillna(0).astype(int).tolist()`. -/
def fillnaInt (l : List (Option Int)) : List Int := l.map (fun v => v.getD 0)

/-- Raw related-queries record as the provider returns it inside a
`top`/`rising` DataFrame: a query string and a possibly missing value. -/
structure RQRaw where
  query : List Char
  value : Option Int
deriving DecidableEq

/-- Normalized related-queries record: `{query, value}` with the missing
value defaulted to 0 by `.fillna(0)`. -/
structure RQRec where
  query : List Char
  value : Int
deriving DecidableEq

/-- Raw related-queries response block for one keyword: each of the
`top`/`rising` entries is present as a DataFrame (`some`) or absent /
not a DataFrame (`none`). -/
structure RelatedRaw where
  top : Option (List RQRaw)
  rising : Option (List RQRaw)
deriving DecidableEq

/-- Model of `block[x][["query","value"]].fillna(0).to_dict(orient="records")`. -/
def projRQ (l : List RQRaw) : List RQRec :=
  l.map (fun r => ⟨r.query, r.value.getD 0⟩)

/-- Normalization of a related block (src/app.py 164-168): start from
`{"top": [], "rising": []}` and overwrite each field the provider supplied. -/
def normalizeRelated (b : RelatedRaw) : List RQRec × List RQRec :=
  ((b.top.map projRQ).getD [], (b.rising.map projRQ).getD [])

/-- Values stored in the process-wide cache and returned by the cached
endpoints: the trending item list, an interest payload
`{"labels": ..., "values": ...}`, or a related payload `{"top": ..., "rising": ...}`. -/
inductive CVal : Type
  | items (l : List (List Char))
  | interest (labels : List (List Char)) (values : List Int)
  | related (top rising : List RQRec)
deriving DecidableEq

/-- Python truthiness of a cached value as tested by `if cached:`: a list
is truthy iff non-empty; the interest and related payloads are dicts with a
fixed non-zero number of keys, hence always truthy. -/
def pyTruthy : CVal → Bool
  | .items l => !l.isEmpty
  | .interest _ _ => true
  | .related _ _ => true

/-- Fresh-fetch path of `/api/trending`: fetch, `dropna().head(30)`, store
under the key with ttl 60*30, return `{"items": items}`. -/
def trendingFresh (fetchT : Except Unit (List (Option (List Char)))) (key : List Char)
    (c : Cache CVal) (now : Nat) : Except Unit CVal × Cache CVal :=
  match fetchT with
  | .error e => (.error e, c)
  | .ok raw =>
    let items := (raw.filterMap id).take 30
    (.ok (.items items), cache_set c key (.items items) (some (60 * 30)) now)

/-- Model of `/api/trending` (src/app.py 117-130): cache probe with
truthiness test, then fresh fetch. -/
def api_trending (fetchT : Except Unit (List (Option (List Char)))) (geo : List Char)
    (c : Cache CVal) (now : Nat) : Except Unit CVal × Cache CVal :=
  let r := cache_get c (trendingKey geo) now
  match r.1 with
  | some v => if pyTruthy v then (.ok v, r.2) else trendingFresh fetchT (trendingKey geo) r.2 now
  | none => trendingFresh fetchT (trendingKey geo) r.2 now

/-- Fresh-fetch path of `/api/interest`: fetch the frame; an empty frame or
a frame without the keyword column raises `ValueError`, caught and turned
into a 502; otherwise build `{"labels", "values"}`, store it under the key
with the default ttl and return it. -/
def interestFresh (fetchI : Except Unit DataFrame) (kw key : List Char)
    (c : Cache CVal) (now : Nat) : Except Unit CVal × Cache CVal :=
  match fetchI with
  | .error e => (.error e, c)
  | .ok df =>
    if dfEmpty df || !dfHasCol df kw then (.error (), c)
    else
      let payload : CVal := .interest df.index (fillnaInt (dfCol df kw))
      (.ok payload, cache_set c key payload none now)

/-- Model of `/api/interest` (src/app.py 132-151).  `parse_since` runs
before the `try` block: its exception propagates.  The oracle
`fetchI kw geo tf` stands for the whole provider interaction for that
keyword/geo/window. -/
def api_interest (fetchI : List Char → List Char → List Char → Except Unit DataFrame)
    (kw geo since : List Char) (c : Cache CVal) (now : Nat) :
    Except Unit CVal × Cache CVal :=
  match parse_since since with
  | .error e => (.error e, c)
  | .ok tf =>
    let key := interestKey kw geo tf
    let r := cache_get c key now
    match r.1 with
    | some v => if pyTruthy v then (.ok v, r.2) else interestFresh (fetchI kw geo tf) kw key r.2 now
    | none => interestFresh (fetchI kw geo tf) kw key r.2 now

/-- Fresh-fetch path of `/api/related`: fetch the raw block, normalize it,
store it with ttl 60*30 and return it. -/
def relatedFresh (fetchR : Except Unit RelatedRaw) (key : List Char)
    (c : Cache CVal) (now : Nat) : Except Unit CVal × Cache CVal :=
  match fetchR with
  | .error e => (.error e, c)
  | .ok blk =>
    let out := normalizeRelated blk
    let payload : CVal := .related out.1 out.2
    (.ok payload, cache_set c key payload (some (60 * 30)) now)

/-- Model of `/api/related` (src/app.py 153-172). -/
def api_related (fetchR : List Char → List Char → List Char → Except Unit RelatedRaw)
    (kw geo since : List Char) (c : Cache CVal) (now : Nat) :
    Except Unit CVal × Cache CVal :=
  match parse_since since with
  | .error e => (.error e, c)
  | .ok tf =>
    let key := relatedKey kw geo tf
    let r := cache_get c key now
    match r.1 with
    | some v => if pyTruthy v then (.ok v, r.2) else relatedFresh (fetchR kw geo tf) key r.2 now
    | none => relatedFresh (fetchR kw geo tf) key r.2 now

/-! Batch interest aggregation (src/app.py 174-190). -/

structure BatchSeries where
  term : List Char
  values : List Int
deriving DecidableEq

structure BatchOut where
  labels : List (List Char)
  series : List BatchSeries
deriving DecidableEq

/-- Request body of `/api/batch_interest` (`BatchInterestIn`); the pydantic
defaults are `geo="CZ"`, `since="12m"`. -/
structure BatchInterestIn where
  geo : List Char
  since : List Char
  seeds : List (List Char)

/-- One iteration of the `for term in payload.seeds[:5]` loop: a provider
exception, an empty frame, or a frame without the term's column leaves the
accumulator unchanged (`continue`); otherwise the first success donates its
index as the canonical labels and the series list is extended. -/
def batchStep (fetch : List Char → Except Unit DataFrame)
    (acc : Option (List (List Char)) × List BatchSeries) (term : List Char) :
    Option (List (List Char)) × List BatchSeries :=
  match fetch term with
  | .error _ => acc
  | .ok df =>
    if dfEmpty df || !dfHasCol df term then acc
    else
      (match acc.1 with
       | none => some df.index
       | some l => some l,
       acc.2 ++ [⟨term, fillnaInt (dfCol df term)⟩])

def aggAux (fetch : List Char → Except Unit DataFrame)
    (acc : Option (List (List Char)) × List BatchSeries)
    (seeds : List (List Char)) : Option (List (List Char)) × List BatchSeries :=
  seeds.foldl (batchStep fetch) acc

/-- The whole loop over `payload.seeds[:5]`, returning
`{"labels": labels or [], "series": series_out}`. -/
def aggregate (fetch : List Char → Except Unit DataFrame)
    (seeds : List (List Char)) : BatchOut :=
  BatchOut.mk ((aggAux fetch (none, []) (seeds.take 5)).1.getD [])
    (aggAux fetch (none, []) (seeds.take 5)).2

/-- Model of `/api/batch_interest`: translate the window (outside any
`try`, so its exception propagates), then run the loop.  The handler never
touches the cache. -/
def api_batch_interest
    (fetch : List Char → List Char → List Char → Except Unit DataFrame)
    (p : BatchInterestIn) (c : Cache CVal) : Except Unit BatchOut × Cache CVal :=
  match parse_since p.since with
  | .error e => (.error e, c)
  | .ok tf => (.ok (aggregate (fun t => fetch t p.geo tf) p.seeds), c)

/-- A seed is skipped by the loop iff its fetch raises, or the frame is
empty, or the frame lacks the seed's column. -/
def seedFails (fetch : List Char → Except Unit DataFrame) (t : List Char) : Bool :=
  match fetch t with
  | .error _ => true
  | .ok df => dfEmpty df || !dfHasCol df t

lemma batchStep_fails (f : List Char → Except Unit DataFrame)
    (acc : Option (List (List Char)) × List BatchSeries) (t : List Char)
    (h : seedFails f t = true) : batchStep f acc t = acc := by
  rw [batchStep]
  rw [seedFails] at h
  cases hf : f t with
  | error e => rfl
  | ok df =>
    rw [hf] at h
    exact if_pos h

lemma aggAux_mem (f : List Char → Except Unit DataFrame) :
    ∀ (l : List (List Char)) (acc : Option (List (List Char)) × List BatchSeries)
      (b : BatchSeries), b ∈ (aggAux f acc l).2 → b ∈ acc.2 ∨ b.term ∈ l := by
  intro l
  induction l with
  | nil => exact fun acc b hb => Or.inl hb
  | cons t lt ih =>
    intro acc b hb
    rcases ih (batchStep f acc t) b hb with hb' | hb'
    · cases hf : f t with
      | error e =>
        rw [batchStep_fails f acc t (by rw [seedFails, hf])] at hb'
        exact Or.inl hb'
      | ok df =>
        by_cases hc : (dfEmpty df || !dfHasCol df t) = true
        · rw [batchStep_fails f acc t (by rw [seedFails, hf]; exact hc)] at hb'
          exact Or.inl hb'
        · simp only [batchStep, hf, if_neg hc, List.mem_append, List.mem_singleton] at hb'
          rcases hb' with hb' | rfl
          · exact Or.inl hb'
          · exact Or.inr (List.mem_cons_self _ _)
    · exact Or.inr (List.mem_cons_of_mem _ hb')

lemma aggAux_congr (fA fB : List Char → Except Unit DataFrame) :
    ∀ (l : List (List Char)) (acc : Option (List (List Char)) × List BatchSeries),
      (∀ t ∈ l, fA t = fB t) → aggAux fA acc l = aggAux fB acc l := by
  intro l
  induction l with
  | nil => exact fun acc _ => rfl
  | cons t lt ih =>
    intro acc hagree
    rw [aggAux, List.foldl_cons, aggAux, List.foldl_cons]
    rw [show batchStep fA acc t = batchStep fB acc t from by
      rw [batchStep, batchStep, hagree t (List.mem_cons_self _ _)]]
    exact ih (batchStep fB acc t) (fun u hu => hagree u (List.mem_cons_of_mem _ hu))

lemma aggAux_all_fail (f : List Char → Except Unit DataFrame) :
    ∀ (l : List (List Char)) (acc : Option (List (List Char)) × List BatchSeries),
      (∀ t ∈ l, seedFails f t = true) → aggAux f acc l = acc := by
  intro l
  induction l with
  | nil => exact fun acc _ => rfl
  | cons t lt ih =>
    intro acc hall
    rw [aggAux, List.foldl_cons, batchStep_fails f acc t (hall t (List.mem_cons_self _ _))]
    exact ih acc (fun u hu => hall u (List.mem_cons_of_mem _ hu))

/-- C3: with more than 5 seeds, the batch loop processes exactly the first
5 seeds in order: the result only depends on the oracle's behaviour on the
first 5 seeds and equals the aggregation of the truncated list, and every
term in the returned series is one of the first 5 seeds. -/
theorem batch_first_five (fetchA fetchB : List Char → Except Unit DataFrame)
    (seeds : List (List Char)) (h5 : 5 < seeds.length)
    (hagree : ∀ t ∈ seeds.take 5, fetchA t = fetchB t) :
    aggregate fetchA seeds = aggregate fetchB (seeds.take 5) ∧
    ∀ b ∈ (aggregate fetchA seeds).series, b.term ∈ seeds.take 5 := by
  constructor
  · rw [aggregate, aggregate,
      show (seeds.take 5).take 5 = seeds.take 5 from by simp [List.take_take],
      aggAux_congr fetchA fetchB (seeds.take 5) (none, []) hagree]
  · intro b hb
    rcases aggAux_mem fetchA (seeds.take 5) (none, []) b hb with h | h
    · exact absurd h (by simp)
    · exact h

theorem batch_first_five_witness :
    aggregate (fun _ => .error ()) (("a").data :: ("b").data :: ("c").data ::
        ("d").data :: ("e").data :: ("f").data :: []) =
      aggregate (fun _ => .error ()) ((("a").data :: ("b").data :: ("c").data ::
        ("d").data :: ("e").data :: ("f").data :: []).take 5) :=
  (batch_first_five (fun _ => .error ()) (fun _ => .error ())
    (("a").data :: ("b").data :: ("c").data :: ("d").data :: ("e").data ::
      ("f").data :: []) (by decide) (fun _ _ => rfl)).1

/-- C4: the batch operation is partial-failure tolerant: a seed whose fetch
raises, is empty, or lacks the term leaves the loop state untouched while
the remaining seeds are still processed; if every seed fails the result is
exactly `{labels: [], series: []}`; and (with the default `since`) the
endpoint as a whole always answers `.ok`. -/
theorem batch_partial_failure (fetch : List Char → Except Unit DataFrame)
    (xs ys seeds : List (List Char)) (bad : List Char)
    (acc : Option (List (List Char)) × List BatchSeries)
    (hbad : seedFails fetch bad = true) :
    aggAux fetch acc (xs ++ bad :: ys) = aggAux fetch acc (xs ++ ys) ∧
    ((∀ t ∈ seeds, seedFails fetch t = true) →
      aggregate fetch seeds = BatchOut.mk [] []) ∧
    ∀ (geo : List Char) (c : Cache CVal),
      (api_batch_interest (fun t _ _ => fetch t)
        (BatchInterestIn.mk geo (("12m").data) seeds) c).1 =
      .ok (aggregate fetch seeds) := by
  refine ⟨?_, ?_, ?_⟩
  · rw [aggAux, aggAux, List.foldl_append, List.foldl_append, List.foldl_cons,
      batchStep_fails fetch _ bad hbad]
  · intro hall
    rw [aggregate, aggAux_all_fail fetch (seeds.take 5) (none, [])
      (fun t ht => hall t (List.take_subset 5 seeds ht))]
    rfl
  · intro geo c
    rfl

theorem batch_partial_failure_witness :
    aggregate (fun _ => .error ()) (("a").data :: ("b").data :: []) =
      BatchOut.mk [] [] :=
  ((batch_partial_failure (fun _ => .error ()) [] [] (("a").data :: ("b").data :: [])
    (("x").data) (none, []) rfl).2.1 (fun _ _ => rfl))

/-- C5: the batch endpoint neither reads from nor writes to the cache: for
every request the cache afterwards is exactly the cache before, and the
response does not depend on the cache contents at all. -/
theorem batch_no_cache
    (fetch : List Char → List Char → List Char → Except Unit DataFrame)
    (p : BatchInterestIn) (c c2 : Cache CVal) :
    (api_batch_interest fetch p c).2 = c ∧
    (api_batch_interest fetch p c).1 = (api_batch_interest fetch p c2).1 := by
  rw [api_batch_interest, api_batch_interest]
  cases parse_since p.since <;> exact ⟨rfl, rfl⟩

/-- C9: the normalized related result always carries both fields: a block
the provider did not supply normalizes to the empty sequence (never
omitted, never null), a supplied block is projected to `{query, value}`
records, a missing value is defaulted to 0, and a response with only a
`top` block yields `(top, [])`. -/
theorem related_normalize_total (b : RelatedRaw) (l : List RQRaw) (q : List Char) :
    (b.top = none → (normalizeRelated b).1 = []) ∧
    (b.rising = none → (normalizeRelated b).2 = []) ∧
    (∀ lt, b.top = some lt → (normalizeRelated b).1 = projRQ lt) ∧
    (∀ lr, b.rising = some lr → (normalizeRelated b).2 = projRQ lr) ∧
    normalizeRelated (RelatedRaw.mk (some l) none) = (projRQ l, []) ∧
    projRQ (RQRaw.mk q none :: []) = (RQRec.mk q 0 :: []) := by
  refine ⟨?_, ?_, ?_, ?_, rfl, rfl⟩
  · intro h
    rw [normalizeRelated, h]
    rfl
  · intro h
    rw [normalizeRelated, h]
    rfl
  · intro lt h
    rw [normalizeRelated, h]
    rfl
  · intro lr h
    rw [normalizeRelated, h]
    rfl

theorem related_normalize_total_witness :
    normalizeRelated (RelatedRaw.mk (some (RQRaw.mk (("cat").data) none :: [])) none) =
      (projRQ (RQRaw.mk (("cat").data) none :: []), []) ∧
    (normalizeRelated (RelatedRaw.mk (some (RQRaw.mk (("cat").data) none :: [])) none)).2 = [] :=
  ⟨(related_normalize_total (RelatedRaw.mk (some (RQRaw.mk (("cat").data) none :: [])) none)
      (RQRaw.mk (("cat").data) none :: []) (("cat").data)).2.2.2.2.1,
   (related_normalize_total (RelatedRaw.mk (some (RQRaw.mk (("cat").data) none :: [])) none)
      (RQRaw.mk (("cat").data) none :: []) (("cat").data)).2.1 rfl⟩

/-- C10: a stored cache entry is served only when truthy: on each cached
endpoint, a cached value that is falsy (e.g. an empty trending item list)
is treated as a miss and the fresh provider path runs; only truthy cached
data short-circuits the provider call. -/
theorem cached_falsy_is_miss
    (fetchT : Except Unit (List (Option (List Char))))
    (fetchI : List Char → List Char → List Char → Except Unit DataFrame)
    (fetchR : List Char → List Char → List Char → Except Unit RelatedRaw)
    (kw geo since tf : List Char) (c : Cache CVal) (now : Nat) (v : CVal) :
    (cache_get c (trendingKey geo) now = (some v, c) → pyTruthy v = false →
      api_trending fetchT geo c now = trendingFresh fetchT (trendingKey geo) c now) ∧
    (cache_get c (trendingKey geo) now = (some v, c) → pyTruthy v = true →
      api_trending fetchT geo c now = (.ok v, c)) ∧
    (parse_since since = .ok tf →
      cache_get c (interestKey kw geo tf) now = (some v, c) → pyTruthy v = false →
      api_interest fetchI kw geo since c now =
        interestFresh (fetchI kw geo tf) kw (interestKey kw geo tf) c now) ∧
    (parse_since since = .ok tf →
      cache_get c (relatedKey kw geo tf) now = (some v, c) → pyTruthy v = false →
      api_related fetchR kw geo since c now =
        relatedFresh (fetchR kw geo tf) (relatedKey kw geo tf) c now) := by
  refine ⟨?_, ?_, ?_, ?_⟩
  · intro hget hfal
    rw [api_trending]
    simp only [hget]
    rw [hfal]
    rfl
  · intro hget htru
    rw [api_trending]
    simp only [hget]
    rw [htru]
    rfl
  · intro htf hget hfal
    rw [api_interest, htf]
    simp only [hget]
    rw [hfal]
    rfl
  · intro htf hget hfal
    rw [api_related, htf]
    simp only [hget]
    rw [hfal]
    rfl

theorem cached_falsy_is_miss_witness :
    api_trending (.ok []) (("CZ").data)
        (cache_set ([] : Cache CVal) (trendingKey (("CZ").data)) (CVal.items []) (some 100) 0) 1 =
      trendingFresh (.ok []) (trendingKey (("CZ").data))
        (cache_set ([] : Cache CVal) (trendingKey (("CZ").data)) (CVal.items []) (some 100) 0) 1 :=
  (cached_falsy_is_miss (.ok []) (fun _ _ _ => .error ()) (fun _ _ _ => .error ())
    (("k").data) (("CZ").data) (("12m").data) (("today 12-m").data)
    (cache_set ([] : Cache CVal) (trendingKey (("CZ").data)) (CVal.items []) (some 100) 0)
    1 (CVal.items [])).1 (by decide) (by decide)
